import Mathlib

/-!
Shallow embedding of the deepagent task orchestrator core
(src/orchestrator/core/task_queue.py, claude_runner.py, worker.py,
result_processor.py and config.py), together with proofs checking the
natural-language specification against it.

Conventions of the embedding:
* timestamps (`datetime.utcnow()`) are modelled as natural numbers and
  passed explicitly as a `now` argument to each operation that samples
  the clock;
* the SQLite store is modelled as the list of task rows in insertion
  (rowid) order plus the append-only list of task-log rows;
* `random.uniform(0, d/10)` is modelled by an explicit rational jitter
  argument constrained by hypotheses `0 ≤ j ≤ d/10`;
* Python `int()` of a non-negative float is `Int.floor`;
* task fields that no verified claim mentions (config, delivery,
  attachment_refs, outputs_path, cloud_links, correlation_id) are
  omitted from the task record; the operations never read them.
-/

namespace DeepAgent

/-- Task lifecycle states, from `TaskStatus` in db/models.py. -/
inductive TaskStatus where
  | pending
  | queued
  | running
  | processing
  | completed
  | failed
  | retry
  | dead
deriving DecidableEq, Repr

/-- A task row (`Task` in db/models.py), restricted to the fields the
verified operations read or write. -/
structure Task where
  id : String
  type : String
  status : TaskStatus
  attempts : Nat
  maxAttempts : Nat
  lastError : Option String
  nextRetryAt : Option Nat
  createdAt : Nat
  queuedAt : Option Nat
  startedAt : Option Nat
  completedAt : Option Nat
  resultSummary : Option String
deriving DecidableEq, Repr

/-- A task-log row (`TaskLog` in db/models.py): level, event slug and
human-readable message for a task id. -/
structure TaskLog where
  taskId : String
  level : String
  event : String
  message : String
deriving DecidableEq, Repr

/-- The durable store: task rows in insertion (rowid) order and the
append-only log table. -/
structure QueueState where
  tasks : List Task
  logs : List TaskLog
deriving DecidableEq, Repr

/-- The configuration fields read by the verified operations, from
`Settings` in config.py. -/
structure Settings where
  maxTaskAttempts : Nat
  retryBaseDelaySeconds : Nat
  retryMaxDelaySeconds : Nat
  researchTimeoutMinutes : Nat
  analysisTimeoutMinutes : Nat
  documentTimeoutMinutes : Nat
deriving DecidableEq, Repr

/-- The defaults declared on `Settings` in config.py. -/
def defaultSettings : Settings :=
  { maxTaskAttempts := 3
    retryBaseDelaySeconds := 60
    retryMaxDelaySeconds := 900
    researchTimeoutMinutes := 30
    analysisTimeoutMinutes := 20
    documentTimeoutMinutes := 15 }

/-- The clamped backoff `min(base * 2^attempt, max_delay)` from
`TaskQueue._calculate_retry_delay`. -/
def clampedDelay (s : Settings) (attempt : Nat) : Nat :=
  min (s.retryBaseDelaySeconds * 2 ^ attempt) s.retryMaxDelaySeconds

/-- `TaskQueue._calculate_retry_delay`: `int(delay + jitter)` where
`delay = min(base * 2^attempt, max_delay)` and
`jitter = random.uniform(0, delay * 0.1)` is passed in explicitly. -/
def calculateRetryDelay (s : Settings) (attempt : Nat) (jitter : ℚ) : ℤ :=
  ⌊(clampedDelay s attempt : ℚ) + jitter⌋

/-- Eligibility filter of `TaskQueue.dequeue`: `status == QUEUED` or
(`status == RETRY` and `next_retry_at <= now`); a NULL `next_retry_at`
fails the SQL comparison. -/
def eligible (now : Nat) (t : Task) : Bool :=
  t.status == .queued ||
    (t.status == .retry &&
      (match t.nextRetryAt with
       | some r => decide (r ≤ now)
       | none => false))

/-- The row selected by `ORDER BY created_at LIMIT 1` over the eligible
rows: a scan keeping the first row seen with the least `created_at`, so
ties on `created_at` keep the earlier (rowid-order) row. -/
def selectNext (now : Nat) : List Task → Option Task
  | [] => none
  | t :: ts =>
    match selectNext now ts with
    | none => if eligible now t then some t else none
    | some b =>
      if eligible now t && decide (t.createdAt ≤ b.createdAt) then some t else some b

/-- The in-place update `dequeue` performs on the claimed row: status
RUNNING, `started_at = now`, `attempts += 1` (note: `next_retry_at` is
not touched). -/
def claimTask (now : Nat) (t : Task) : Task :=
  { t with status := .running, startedAt := some now, attempts := t.attempts + 1 }

/-- `TaskQueue.dequeue`: select the next eligible row, mark it RUNNING
and log `task_started`; `(none, q)` when no row is eligible. -/
def dequeue (now : Nat) (q : QueueState) : Option Task × QueueState :=
  match selectNext now q.tasks with
  | none => (none, q)
  | some t =>
    let t' := claimTask now t
    (some t',
      { tasks := q.tasks.map (fun u => if u.id == t.id then t' else u)
        logs := q.logs ++ [⟨t.id, "info", "task_started",
          "Task started (attempt " ++ toString t'.attempts ++ "/" ++
            toString t'.maxAttempts ++ ")"⟩] })

/-- `TaskQueue.enqueue`: insert a fresh QUEUED row (the generated UUID
is passed in as `taskId`) and log `task_queued`. -/
def enqueue (q : QueueState) (s : Settings) (taskId taskType title : String)
    (now : Nat) : Task × QueueState :=
  let task : Task :=
    { id := taskId, type := taskType, status := .queued, attempts := 0
      maxAttempts := s.maxTaskAttempts, lastError := none, nextRetryAt := none
      createdAt := now, queuedAt := some now, startedAt := none
      completedAt := none, resultSummary := none }
  (task,
    { tasks := q.tasks ++ [task]
      logs := q.logs ++ [⟨taskId, "info", "task_queued",
        "Task '" ++ title ++ "' queued for processing"⟩] })

/-- `TaskQueue.mark_processing`: an unconditional
`UPDATE tasks SET status = PROCESSING WHERE id = task_id` plus a
`task_processing` log entry (no precondition on the current status). -/
def markProcessing (q : QueueState) (taskId : String) : QueueState :=
  { tasks := q.tasks.map (fun u =>
      if u.id == taskId then { u with status := .processing } else u)
    logs := q.logs ++ [⟨taskId, "info", "task_processing",
      "Claude execution complete, processing results"⟩] }

/-- `TaskQueue.mark_completed`: unconditional update to COMPLETED with
`completed_at = now` and the result summary, plus a `task_completed`
log entry. -/
def markCompleted (q : QueueState) (taskId : String) (summary : Option String)
    (now : Nat) : QueueState :=
  { tasks := q.tasks.map (fun u =>
      if u.id == taskId then
        { u with status := .completed, completedAt := some now,
                 resultSummary := summary }
      else u)
    logs := q.logs ++ [⟨taskId, "info", "task_completed",
      "Task completed successfully"⟩] }

/-- `TaskQueue.mark_failed`: raises (`Except.error`) when the id is
unknown; otherwise schedules RETRY when `retry and attempts <
max_attempts`, else DEAD (retry requested) or FAILED (retry refused),
and returns the new status. -/
def markFailed (q : QueueState) (s : Settings) (taskId error : String)
    (retry : Bool) (now : Nat) (jitter : ℚ) :
    Except String (TaskStatus × QueueState) :=
  match q.tasks.find? (fun t => t.id == taskId) with
  | none => .error ("Task " ++ taskId ++ " not found")
  | some t =>
    if retry && decide (t.attempts < t.maxAttempts) then
      let delay := (calculateRetryDelay s t.attempts jitter).toNat
      let t' := { t with status := .retry, lastError := some error,
                         nextRetryAt := some (now + delay) }
      .ok (t'.status,
        { tasks := q.tasks.map (fun u => if u.id == taskId then t' else u)
          logs := q.logs ++ [⟨taskId, "warning", "task_retry_scheduled",
            "Task failed, retry scheduled in " ++ toString delay ++ "s: " ++
              error⟩] })
    else
      let t' := { t with status := if retry then .dead else .failed,
                         lastError := some error, completedAt := some now }
      .ok (t'.status,
        { tasks := q.tasks.map (fun u => if u.id == taskId then t' else u)
          logs := q.logs ++ [⟨taskId, "error",
            if retry then "task_dead" else "task_failed",
            "Task failed permanently: " ++ error⟩] })

/-- `TaskQueue.cancel`: `(false, q)` when the id is unknown or the task
is already COMPLETED, DEAD or FAILED (no update, no log); otherwise mark
FAILED with `last_error = "Cancelled by user"`, `completed_at = now`,
log `task_cancelled` and return true. -/
def cancel (q : QueueState) (taskId : String) (now : Nat) :
    Bool × QueueState :=
  match q.tasks.find? (fun t => t.id == taskId) with
  | none => (false, q)
  | some t =>
    if t.status == .completed || t.status == .dead || t.status == .failed then
      (false, q)
    else
      let t' := { t with status := .failed, lastError := some "Cancelled by user",
                         completedAt := some now }
      (true,
        { tasks := q.tasks.map (fun u => if u.id == taskId then t' else u)
          logs := q.logs ++ [⟨taskId, "info", "task_cancelled",
            "Task cancelled by user"⟩] })

/-! ### Python string primitives

The extractor `ResultProcessor._extract_first_section` uses Python's
`str.strip`, `str.split("\n")`, `str.startswith`, `len`, `"\n".join`,
slicing and `str.rsplit(" ", 1)`.  These primitives are modelled
structurally over `String.data` (so that they compute by kernel
reduction); each matches the Python semantics on the documented
whitespace set. -/

/-- The characters removed by Python `str.strip()` (ASCII range):
space, tab, newline, carriage return, vertical tab, form feed. -/
def isPySpace (c : Char) : Bool :=
  c == ' ' || c == '\t' || c == '\n' || c == '\r' ||
    c == Char.ofNat 11 || c == Char.ofNat 12

/-- Python `str.strip()` on a character list: drop leading and trailing
whitespace. -/
def stripChars (l : List Char) : List Char :=
  ((l.dropWhile isPySpace).reverse.dropWhile isPySpace).reverse

/-- Python `str.strip()`. -/
def pyStrip (s : String) : String := ⟨stripChars s.data⟩

/-- Python `str.split("\n")` on a character list: split at every
newline, keeping empty segments (`"".split("\n") == [""]`). -/
def splitNewline : List Char → List (List Char)
  | [] => [[]]
  | c :: cs =>
    match splitNewline cs with
    | [] => [[]]
    | l :: ls => if c = '\n' then [] :: l :: ls else (c :: l) :: ls

/-- Python `content.split("\n")` producing the list of lines. -/
def pyLines (s : String) : List String :=
  (splitNewline s.data).map (fun l => ⟨l⟩)

/-- Python `s.startswith(p)`. -/
def pyStartsWith (s p : String) : Bool :=
  p.data.isPrefixOf s.data

/-- Python `len(s)` (a character count). -/
def pyLen (s : String) : Nat := s.data.length

/-- Python `"\n".join(lines)`. -/
def pyJoinLines (ls : List String) : String :=
  ⟨List.intercalate ['\n'] (ls.map String.data)⟩

/-- Python `s[:n]` (a character slice). -/
def pyTake (n : Nat) (s : String) : String := ⟨s.data.take n⟩

/-- Python `s.rsplit(" ", 1)[0]`: everything before the last space, or
the whole string when it has no space. -/
def beforeLastSpace (s : String) : String :=
  match s.data.reverse.dropWhile (fun c => !(c == ' ')) with
  | [] => s
  | _ :: rest => ⟨rest.reverse⟩

/-! ### Summary extraction (`ResultProcessor._extract_first_section`) -/

/-- The line-scanning loop of `_extract_first_section`: fence-delimiter
lines toggle `in_code_block` and are dropped, lines inside a fence are
dropped, blank lines are dropped while nothing has been collected, a
line starting with `#` stops the scan once something has been
collected, and the scan also stops once the collected line lengths
exceed `maxLength` (the line that crossed the bound is kept). -/
def collectSummary (maxLength : Nat) :
    List String → List String → Bool → List String
  | [], acc, _ => acc.reverse
  | line :: rest, acc, inCode =>
    if pyStartsWith (pyStrip line) "```" then
      collectSummary maxLength rest acc (!inCode)
    else if inCode then
      collectSummary maxLength rest acc inCode
    else if acc.isEmpty && (pyStrip line).data.isEmpty then
      collectSummary maxLength rest acc inCode
    else if pyStartsWith line "#" && !acc.isEmpty then
      acc.reverse
    else
      let acc2 := line :: acc
      if (acc2.map pyLen).sum > maxLength then acc2.reverse
      else collectSummary maxLength rest acc2 inCode

/-- `ResultProcessor._extract_first_section(content, max_length)`: run
the scanning loop over the lines of the stripped content, join and
strip the collected lines, and when the result is still longer than
`maxLength`, cut its first `maxLength` characters at the last space and
append `"..."`. -/
def extractFirstSection (content : String) (maxLength : Nat) : String :=
  let lines := pyLines (pyStrip content)
  let summaryLines := collectSummary maxLength lines [] false
  let summary := pyStrip (pyJoinLines summaryLines)
  if pyLen summary > maxLength then
    beforeLastSpace (pyTake maxLength summary) ++ "..."
  else summary

/-! ### Spec-described and phase-described summary extraction

`specC9Summary` formalises the specification's words for the summary
("the prefix up to but excluding the second top-level heading,
excluding fenced code blocks, trimmed, soft-capped at 500 characters");
it is compared against `extractFirstSection`.  `amendedC9Summary` is
the corrected description, as a sequence of phases. -/

/-- Fence removal as a phase: drop every fence-delimiter line and every
line inside a fenced block. -/
def removeFences : List String → Bool → List String
  | [], _ => []
  | l :: ls, inCode =>
    if pyStartsWith (pyStrip l) "```" then removeFences ls (!inCode)
    else if inCode then removeFences ls inCode
    else l :: removeFences ls inCode

/-- A top-level (h1) markdown heading line. -/
def isTopHeading (l : String) : Bool := pyStartsWith l "# "

/-- The prefix of the lines up to but excluding the second top-level
heading (`seen` counts the top-level headings already kept). -/
def upToSecondTopAux : List String → Nat → List String
  | [], _ => []
  | l :: ls, seen =>
    if isTopHeading l then
      if 1 ≤ seen then [] else l :: upToSecondTopAux ls (seen + 1)
    else l :: upToSecondTopAux ls seen

/-- The summary as the specification describes it: the prefix of the
trimmed text up to but excluding the second top-level heading, fenced
code blocks excluded, trimmed, soft-capped at 500 characters. -/
def specC9Summary (content : String) : String :=
  let lines := pyLines (pyStrip content)
  let kept := upToSecondTopAux (removeFences lines false) 0
  let summary := pyStrip (pyJoinLines kept)
  if pyLen summary > 500 then
    beforeLastSpace (pyTake 500 summary) ++ "..."
  else summary

/-- Phase: drop the blank lines before the first kept line. -/
def dropLeadingBlank (lines : List String) : List String :=
  lines.dropWhile (fun l => (pyStrip l).data.isEmpty)

/-- Phase: keep the first line and the following lines up to but
excluding the next line starting with `#` (a heading of any level). -/
def cutAtHeading : List String → List String
  | [] => []
  | l :: ls => l :: ls.takeWhile (fun x => !pyStartsWith x "#")

/-- Phase: keep lines until their accumulated character count exceeds
`maxLength`; the line that crosses the bound is still kept. -/
def cutAtLength (maxLength : Nat) : Nat → List String → List String
  | _, [] => []
  | cur, l :: ls =>
    l :: (if cur + pyLen l > maxLength then []
          else cutAtLength maxLength (cur + pyLen l) ls)

/-- The summary as the code actually computes it, described in phases:
remove fenced blocks, drop leading blank lines, cut just before the
first heading line (any level) after the first kept line, stop once the
kept line lengths exceed 500, then join, trim and soft-cap at 500. -/
def amendedC9Summary (content : String) : String :=
  let lines := pyLines (pyStrip content)
  let kept :=
    cutAtLength 500 0 (cutAtHeading (dropLeadingBlank (removeFences lines false)))
  let summary := pyStrip (pyJoinLines kept)
  if pyLen summary > 500 then
    beforeLastSpace (pyTake 500 summary) ++ "..."
  else summary

/-! ### Agent runner and worker (`claude_runner.py`, `worker.py`) -/

/-- `ClaudeResult` from claude_runner.py.  The source field `partial`
("True if execution was interrupted") is renamed `isPartial`
(`partial` is a Lean keyword); it defaults to `False` in the source. -/
structure ClaudeResult where
  success : Bool
  output : Option String
  error : Option String
  isPartial : Bool
deriving DecidableEq, Repr

/-- The result `_run_claude` returns from its `except FileNotFoundError`
branch (spawn failed because the `claude` binary is missing): the
`partial` flag is left at its default `False`. -/
def missingBinaryResult : ClaudeResult :=
  { success := false, output := none
    error := some "Claude CLI not found. Is it installed?"
    isPartial := false }

/-- The result `_run_claude` returns from its `asyncio.TimeoutError`
branch, after running the cancellation protocol. -/
def timeoutResult (timeout : Nat) : ClaudeResult :=
  { success := false, output := none
    error := some ("Execution timed out after " ++ toString timeout ++
      " seconds")
    isPartial := true }

/-- `Settings.get_task_timeout`: per-type timeout in seconds, with the
document timeout as the fallback. -/
def getTaskTimeout (s : Settings) (taskType : String) : Nat :=
  if taskType == "research" then s.researchTimeoutMinutes * 60
  else if taskType == "analysis" then s.analysisTimeoutMinutes * 60
  else if taskType == "document" then s.documentTimeoutMinutes * 60
  else s.documentTimeoutMinutes * 60

/-- The failure branch of the worker loop (`Worker.start`): on a
non-successful runner result, call `mark_failed` with the result's
error (`"Unknown error"` when absent) and `retry = not result.partial`. -/
def workerHandleFailure (q : QueueState) (s : Settings) (taskId : String)
    (r : ClaudeResult) (now : Nat) (jitter : ℚ) :
    Except String (TaskStatus × QueueState) :=
  markFailed q s taskId (r.error.getD "Unknown error") (!r.isPartial) now jitter

/-! ### Concrete fixtures used by witnesses and counterexamples -/

/-- A running task on its first attempt (as produced by a first
`dequeue` of a fresh default-settings task). -/
def sampleRunning : Task :=
  { id := "a", type := "document", status := .running, attempts := 1
    maxAttempts := 3, lastError := none, nextRetryAt := none
    createdAt := 0, queuedAt := some 0, startedAt := some 1
    completedAt := none, resultSummary := none }

/-- A store holding just `sampleRunning`. -/
def qRunningState : QueueState := { tasks := [sampleRunning], logs := [] }

/-- A freshly enqueued task (status QUEUED, no attempt yet). -/
def sampleQueued : Task :=
  { sampleRunning with status := .queued, attempts := 0, startedAt := none }

/-- A store holding just `sampleQueued`. -/
def qQueuedState : QueueState := { tasks := [sampleQueued], logs := [] }

/-- A task parked in RETRY with its backoff expired at time 5 (the shape
`mark_failed` leaves behind on a retryable failure). -/
def sampleRetry : Task :=
  { sampleRunning with status := .retry, nextRetryAt := some 5,
                       lastError := some "boom" }

/-- A store holding just `sampleRetry`. -/
def qRetryState : QueueState := { tasks := [sampleRetry], logs := [] }

/-- A queued task with id "b", `created_at = 0`. -/
def taskTieB : Task := { sampleQueued with id := "b" }

/-- A queued task with id "a", `created_at = 0`. -/
def taskTieA : Task := sampleQueued

/-- A store where "b" was inserted before "a" and both share
`created_at = 0`. -/
def qTieState : QueueState := { tasks := [taskTieB, taskTieA], logs := [] }

/-! ### Theorems for the claims -/

/-- C7: for every attempt count and every jitter draw in
`[0, clamped/10]`, the computed delay lies in the closed interval
`[min(base * 2^a, maxDelay), 1.1 * min(base * 2^a, maxDelay)]`
(an integer number of seconds, by its type). -/
theorem calculateRetryDelay_bounds (s : Settings) (a : Nat) (j : ℚ)
    (h0 : 0 ≤ j) (h1 : j ≤ (clampedDelay s a : ℚ) / 10) :
    (clampedDelay s a : ℚ) ≤ (calculateRetryDelay s a j : ℚ) ∧
    (calculateRetryDelay s a j : ℚ) ≤ (11 / 10) * (clampedDelay s a : ℚ) := by
  constructor
  · have h2 : (clampedDelay s a : ℤ) ≤ ⌊(clampedDelay s a : ℚ) + j⌋ := by
      rw [Int.le_floor]
      push_cast
      linarith
    exact_mod_cast h2
  · have h3 : ((⌊(clampedDelay s a : ℚ) + j⌋ : ℤ) : ℚ) ≤ (clampedDelay s a : ℚ) + j :=
      Int.floor_le _
    have h4 : (clampedDelay s a : ℚ) + j ≤ (11 / 10) * (clampedDelay s a : ℚ) := by
      linarith
    calc ((calculateRetryDelay s a j : ℤ) : ℚ)
        ≤ (clampedDelay s a : ℚ) + j := h3
      _ ≤ (11 / 10) * (clampedDelay s a : ℚ) := h4

/-- Witness for C7 at the default settings, attempt 0, jitter 0. -/
theorem calculateRetryDelay_bounds_witness :
    (clampedDelay defaultSettings 0 : ℚ) ≤
      (calculateRetryDelay defaultSettings 0 0 : ℚ) ∧
    (calculateRetryDelay defaultSettings 0 0 : ℚ) ≤
      (11 / 10) * (clampedDelay defaultSettings 0 : ℚ) :=
  calculateRetryDelay_bounds defaultSettings 0 0 (by norm_num)
    (by norm_num [clampedDelay, defaultSettings])

/-- C1: for a task whose row is found, `mark_failed` schedules RETRY
with `next_retry_at = now + delayFor(attempts)` and `last_error` set
when retry is requested and `attempts < max_attempts`; otherwise it
marks DEAD (retry requested) or FAILED (retry refused) with
`completed_at = now`, and in each case returns the new status. -/
theorem markFailed_transition_spec (q : QueueState) (s : Settings)
    (tid error : String) (retry : Bool) (now : Nat) (j : ℚ) (t : Task)
    (h : q.tasks.find? (fun u => u.id == tid) = some t) :
    (retry = true → t.attempts < t.maxAttempts →
      markFailed q s tid error retry now j =
        .ok (.retry,
          { tasks := q.tasks.map (fun u => if u.id == tid then
              { t with status := .retry, lastError := some error,
                       nextRetryAt :=
                         some (now + (calculateRetryDelay s t.attempts j).toNat) }
              else u)
            logs := q.logs ++ [⟨tid, "warning", "task_retry_scheduled",
              "Task failed, retry scheduled in " ++
                toString ((calculateRetryDelay s t.attempts j).toNat) ++
                "s: " ++ error⟩] })) ∧
    (retry = true → ¬ t.attempts < t.maxAttempts →
      markFailed q s tid error retry now j =
        .ok (.dead,
          { tasks := q.tasks.map (fun u => if u.id == tid then
              { t with status := .dead, lastError := some error,
                       completedAt := some now }
              else u)
            logs := q.logs ++ [⟨tid, "error", "task_dead",
              "Task failed permanently: " ++ error⟩] })) ∧
    (retry = false →
      markFailed q s tid error retry now j =
        .ok (.failed,
          { tasks := q.tasks.map (fun u => if u.id == tid then
              { t with status := .failed, lastError := some error,
                       completedAt := some now }
              else u)
            logs := q.logs ++ [⟨tid, "error", "task_failed",
              "Task failed permanently: " ++ error⟩] })) := by
  refine ⟨?_, ?_, ?_⟩
  · intro hr h2
    subst hr
    simp [markFailed, h, h2]
  · intro hr h2
    subst hr
    simp [markFailed, h, h2]
  · intro hr
    subst hr
    simp [markFailed, h]

/-- Witness for C1: the retry branch at a concrete one-task store
(attempt 1 of 3, failure at time 50, jitter 0, delay 120s). -/
theorem markFailed_transition_spec_witness :
    markFailed qRunningState defaultSettings "a" "boom" true 50 0 =
      .ok (.retry,
        { tasks := [{ sampleRunning with
                      status := .retry, lastError := some "boom", nextRetryAt := some 170 }]
          logs := [⟨"a", "warning", "task_retry_scheduled",
            "Task failed, retry scheduled in 120s: boom"⟩] }) := by
  have h := (markFailed_transition_spec qRunningState defaultSettings "a" "boom"
    true 50 0 sampleRunning (by decide)).1 rfl (by decide)
  have hd : (calculateRetryDelay defaultSettings sampleRunning.attempts 0).toNat = 120 := by
    have h120 : calculateRetryDelay defaultSettings sampleRunning.attempts 0 = 120 := by
      norm_num [calculateRetryDelay, clampedDelay, defaultSettings, sampleRunning]
    rw [h120]
    rfl
  rw [h, hd]
  rfl

/-- C8: `cancel` on a found non-terminal task marks it FAILED with
`last_error = "Cancelled by user"` and `completed_at = now`, appends a
`task_cancelled` log entry and returns true; on a task already
COMPLETED, DEAD or FAILED it returns false and leaves the whole store
(tasks and logs) unchanged. -/
theorem cancel_spec (q : QueueState) (tid : String) (now : Nat) (t : Task)
    (h : q.tasks.find? (fun u => u.id == tid) = some t) :
    (t.status ≠ .completed ∧ t.status ≠ .dead ∧ t.status ≠ .failed →
      cancel q tid now =
        (true,
          { tasks := q.tasks.map (fun u => if u.id == tid then
              { t with status := .failed, lastError := some "Cancelled by user",
                       completedAt := some now }
              else u)
            logs := q.logs ++ [⟨tid, "info", "task_cancelled",
              "Task cancelled by user"⟩] })) ∧
    (t.status = .completed ∨ t.status = .dead ∨ t.status = .failed →
      cancel q tid now = (false, q)) := by
  constructor
  · intro h1
    have hb : (t.status == .completed || t.status == .dead ||
        t.status == .failed) = false := by
      rcases h1 with ⟨h1, h2, h3⟩
      cases hst : t.status <;> simp_all
    simp [cancel, h, hb]
  · intro h1
    have hb : (t.status == .completed || t.status == .dead ||
        t.status == .failed) = true := by
      rcases h1 with h1 | h1 | h1 <;> simp [h1]
    simp [cancel, h, hb]

/-- Witness for C8: cancelling the concrete running task at time 7. -/
theorem cancel_spec_witness :
    cancel qRunningState "a" 7 =
      (true,
        { tasks := [{ sampleRunning with
            status := .failed, lastError := some "Cancelled by user",
            completedAt := some 7 }]
          logs := [⟨"a", "info", "task_cancelled", "Task cancelled by user"⟩] }) := by
  have h := (cancel_spec qRunningState "a" 7 sampleRunning (by decide)).1
    (by refine ⟨?_, ?_, ?_⟩ <;> decide)
  rw [h]
  rfl

/-- C10: on an id absent from the store, `cancel` returns false with
the store unchanged (no update, no log), while `mark_failed` raises
(`Except.error`) instead of returning a status. -/
theorem unknown_id_inconsistency (q : QueueState) (s : Settings)
    (tid e : String) (retry : Bool) (now : Nat) (j : ℚ)
    (h : q.tasks.find? (fun u => u.id == tid) = none) :
    cancel q tid now = (false, q) ∧
    markFailed q s tid e retry now j =
      .error ("Task " ++ tid ++ " not found") := by
  constructor
  · simp [cancel, h]
  · simp [markFailed, h]

/-- Witness for C10: the empty store and id "zzz". -/
theorem unknown_id_inconsistency_witness :
    cancel { tasks := [], logs := [] } "zzz" 3 =
      (false, { tasks := [], logs := [] }) ∧
    markFailed { tasks := [], logs := [] } defaultSettings "zzz" "e" true 3 0 =
      .error ("Task " ++ "zzz" ++ " not found") :=
  unknown_id_inconsistency { tasks := [], logs := [] } defaultSettings
    "zzz" "e" true 3 0 (by decide)

/-- C4 counterexample: `mark_processing` on a QUEUED task (current
status not RUNNING) still changes its status to PROCESSING, refuting
the claim that the transition happens only from RUNNING. -/
theorem markProcessing_unguarded_counterexample :
    sampleQueued.status = .queued ∧ TaskStatus.queued ≠ .running ∧
    (markProcessing qQueuedState "a").tasks.map Task.status =
      [.processing] := by
  refine ⟨by decide, by decide, by decide⟩

/-- C4 amended: `mark_processing` is an unconditional update: every
task carrying the given id is set to PROCESSING whatever its current
status, and every task with a different id is left unchanged; the
queue enforces no RUNNING precondition. -/
theorem markProcessing_unconditional (q : QueueState) (tid : String)
    (u : Task) (hu : u ∈ q.tasks) :
    (u.id = tid → { u with status := .processing } ∈ (markProcessing q tid).tasks) ∧
    (u.id ≠ tid → u ∈ (markProcessing q tid).tasks) ∧
    (∀ v ∈ (markProcessing q tid).tasks, v.id = tid → v.status = .processing) := by
  refine ⟨?_, ?_, ?_⟩
  · intro hid
    exact List.mem_map.mpr ⟨u, hu, by simp [hid]⟩
  · intro hid
    exact List.mem_map.mpr ⟨u, hu, by simp [hid]⟩
  · intro v hv hvid
    rcases List.mem_map.mp hv with ⟨w, _, hw⟩
    by_cases hcase : w.id = tid
    · simp [hcase] at hw
      rw [← hw]
    · simp [hcase] at hw
      rw [← hw] at hvid
      exact absurd hvid hcase

/-- Witness for C4 amended: the QUEUED fixture is moved to PROCESSING. -/
theorem markProcessing_unconditional_witness :
    ("a" = "a" →
      { sampleQueued with status := .processing } ∈
        (markProcessing qQueuedState "a").tasks) ∧
    ("a" ≠ "a" → sampleQueued ∈ (markProcessing qQueuedState "a").tasks) ∧
    (∀ v ∈ (markProcessing qQueuedState "a").tasks, v.id = "a" →
      v.status = .processing) := by
  have h := markProcessing_unconditional qQueuedState "a" sampleQueued
    (by decide)
  exact ⟨fun _ => h.1 rfl, h.2.1, h.2.2⟩

/-- C5 counterexample: on the missing-binary result the worker invokes
`mark_failed` with `retry = not partial = true` (the result leaves
`partial` at its default `False`), so for a concrete running task on
attempt 1 of 3 the task transitions to RETRY, not FAILED — refuting
the claim that a missing binary is treated as terminal. -/
theorem missing_binary_retry_counterexample :
    missingBinaryResult.isPartial = false ∧
    (workerHandleFailure qRunningState defaultSettings "a"
        missingBinaryResult 50 0).toOption.map Prod.fst = some .retry ∧
    TaskStatus.retry ≠ .failed := by
  refine ⟨by decide, by decide, by decide⟩

/-- C5 amended: the missing-binary result is `success = false` with
`partial = false`, so the worker calls `mark_failed` with
`retry = true`: the task goes to RETRY while `attempts < max_attempts`
and to DEAD once attempts are exhausted — never directly to FAILED. -/
theorem missing_binary_is_retried (q : QueueState) (s : Settings)
    (tid : String) (now : Nat) (j : ℚ) (t : Task)
    (h : q.tasks.find? (fun u => u.id == tid) = some t) :
    missingBinaryResult.success = false ∧
    missingBinaryResult.isPartial = false ∧
    (t.attempts < t.maxAttempts →
      (workerHandleFailure q s tid missingBinaryResult now j).toOption.map
        Prod.fst = some .retry) ∧
    (¬ t.attempts < t.maxAttempts →
      (workerHandleFailure q s tid missingBinaryResult now j).toOption.map
        Prod.fst = some .dead) := by
  refine ⟨rfl, rfl, ?_, ?_⟩
  · intro h2
    simp [workerHandleFailure, markFailed, missingBinaryResult, h, h2,
      Except.toOption]
  · intro h2
    simp [workerHandleFailure, markFailed, missingBinaryResult, h, h2,
      Except.toOption]

/-- Witness for C5 amended at the concrete running task. -/
theorem missing_binary_is_retried_witness :
    missingBinaryResult.success = false ∧
    missingBinaryResult.isPartial = false ∧
    (sampleRunning.attempts < sampleRunning.maxAttempts →
      (workerHandleFailure qRunningState defaultSettings "a"
        missingBinaryResult 9 0).toOption.map Prod.fst = some .retry) ∧
    (¬ sampleRunning.attempts < sampleRunning.maxAttempts →
      (workerHandleFailure qRunningState defaultSettings "a"
        missingBinaryResult 9 0).toOption.map Prod.fst = some .dead) :=
  missing_binary_is_retried qRunningState defaultSettings "a" 9 0
    sampleRunning (by decide)

/-- C6: the default per-type timeouts are 1800/1200/900 seconds; the
timeout result carries `success = false`,
`error = "Execution timed out after N seconds"` and `partial = true`,
and on it the worker's `mark_failed(retry = not partial = false)` call
moves the found task to FAILED (not RETRY) with `completed_at = now`
and the timeout message as `last_error`. -/
theorem timeout_result_terminal_failed (q : QueueState) (s : Settings)
    (tid : String) (now : Nat) (j : ℚ) (t : Task) (n : Nat)
    (h : q.tasks.find? (fun u => u.id == tid) = some t) :
    getTaskTimeout defaultSettings "research" = 1800 ∧
    getTaskTimeout defaultSettings "analysis" = 1200 ∧
    getTaskTimeout defaultSettings "document" = 900 ∧
    (timeoutResult n).success = false ∧
    (timeoutResult n).error =
      some ("Execution timed out after " ++ toString n ++ " seconds") ∧
    (timeoutResult n).isPartial = true ∧
    workerHandleFailure q s tid (timeoutResult n) now j =
      .ok (.failed,
        { tasks := q.tasks.map (fun u => if u.id == tid then
            { t with status := .failed,
                     lastError := some ("Execution timed out after " ++
                       toString n ++ " seconds"),
                     completedAt := some now }
            else u)
          logs := q.logs ++ [⟨tid, "error", "task_failed",
            "Task failed permanently: " ++ ("Execution timed out after " ++
              toString n ++ " seconds")⟩] }) := by
  refine ⟨rfl, rfl, rfl, rfl, rfl, rfl, ?_⟩
  simp [workerHandleFailure, markFailed, timeoutResult, h]

/-- Witness for C6: a 900-second document timeout at the concrete
running task, failed at time 77. -/
theorem timeout_result_terminal_failed_witness :
    workerHandleFailure qRunningState defaultSettings "a"
      (timeoutResult (getTaskTimeout defaultSettings "document")) 77 0 =
      .ok (.failed,
        { tasks := [{ sampleRunning with
            status := .failed,
            lastError := some "Execution timed out after 900 seconds",
            completedAt := some 77 }]
          logs := [⟨"a", "error", "task_failed",
            "Task failed permanently: Execution timed out after 900 seconds"⟩] }) := by
  have h := (timeout_result_terminal_failed qRunningState defaultSettings "a"
    77 0 sampleRunning (getTaskTimeout defaultSettings "document")
    (by decide)).2.2.2.2.2.2
  rw [h]
  rfl

/-- The direction of the spec invariant that does hold: every RETRY
task has a non-null `next_retry_at`. -/
def retryInv (q : QueueState) : Prop :=
  ∀ t ∈ q.tasks, t.status = .retry → t.nextRetryAt ≠ none

/-- A per-element mapping that preserves the RETRY implication
preserves it over the whole task list. -/
theorem retryInv_mapped (l : List Task) (f : Task → Task)
    (hf : ∀ t ∈ l, (f t).status = .retry → (f t).nextRetryAt ≠ none) :
    ∀ t ∈ l.map f, t.status = .retry → t.nextRetryAt ≠ none := by
  intro t ht hst
  rcases List.mem_map.mp ht with ⟨u, hu, rfl⟩
  exact hf u hu hst

/-- C3 counterexample: a RETRY task whose backoff has expired is
dequeued; the updated row is RUNNING but still carries
`next_retry_at = 5`, refuting the claimed equivalence
`status = RETRY ⇔ nextRetryAt ≠ null` (dequeue never clears the
field). -/
theorem retry_nextRetryAt_iff_counterexample :
    sampleRetry.status = .retry ∧ sampleRetry.nextRetryAt = some 5 ∧
    (dequeue 10 qRetryState).2.tasks.map (fun t => (t.status, t.nextRetryAt)) =
      [(.running, some 5)] ∧
    TaskStatus.running ≠ .retry := by
  refine ⟨by decide, by decide, by decide, by decide⟩

/-- C3 amended: only the forward implication is an invariant — if a
task's status is RETRY then `next_retry_at` is non-null — and it is
preserved by every queue operation (enqueue, dequeue, markProcessing,
markCompleted, markFailed, cancel); the converse direction fails, since
dequeue and the terminal transitions never clear `next_retry_at`. -/
theorem retry_implies_nextRetryAt_preserved (q : QueueState) (s : Settings)
    (newId tid taskType title error : String) (retryFlag : Bool)
    (summary : Option String) (now : Nat) (j : ℚ)
    (hq : retryInv q) :
    retryInv (enqueue q s newId taskType title now).2 ∧
    retryInv (dequeue now q).2 ∧
    retryInv (markProcessing q tid) ∧
    retryInv (markCompleted q tid summary now) ∧
    (∀ st q', markFailed q s tid error retryFlag now j = .ok (st, q') →
      retryInv q') ∧
    retryInv (cancel q tid now).2 := by
  refine ⟨?_, ?_, ?_, ?_, ?_, ?_⟩
  · intro t ht hst
    simp only [enqueue, List.mem_append, List.mem_singleton] at ht
    rcases ht with ht | rfl
    · exact hq t ht hst
    · simp at hst
  · cases hsel : selectNext now q.tasks with
    | none => simpa [dequeue, hsel] using hq
    | some b =>
      simp only [dequeue, hsel]
      apply retryInv_mapped
      intro u hu
      by_cases hc : (u.id == b.id) = true
      · simp [hc, claimTask]
      · simp only [hc]
        simp only [Bool.false_eq_true, if_false]
        exact hq u hu
  · apply retryInv_mapped
    intro u hu
    by_cases hc : (u.id == tid) = true
    · simp [hc]
    · simp only [hc, Bool.false_eq_true, if_false]
      exact hq u hu
  · apply retryInv_mapped
    intro u hu
    by_cases hc : (u.id == tid) = true
    · simp [hc]
    · simp only [hc, Bool.false_eq_true, if_false]
      exact hq u hu
  · intro st q' heq
    cases hfind : q.tasks.find? (fun t => t.id == tid) with
    | none => simp [markFailed, hfind] at heq
    | some u =>
      by_cases hc : (retryFlag && decide (u.attempts < u.maxAttempts)) = true
      · simp only [markFailed, hfind, hc, if_true] at heq
        obtain ⟨-, rfl⟩ : st = _ ∧ q' = _ := by
          have := Except.ok.inj heq
          exact ⟨congrArg Prod.fst this.symm, congrArg Prod.snd this.symm⟩
        apply retryInv_mapped
        intro w hw
        by_cases hw2 : (w.id == tid) = true
        · simp [hw2]
        · simp only [hw2, Bool.false_eq_true, if_false]
          exact hq w hw
      · simp only [markFailed, hfind, hc, Bool.false_eq_true, if_false] at heq
        obtain ⟨-, rfl⟩ : st = _ ∧ q' = _ := by
          have := Except.ok.inj heq
          exact ⟨congrArg Prod.fst this.symm, congrArg Prod.snd this.symm⟩
        apply retryInv_mapped
        intro w hw
        by_cases hw2 : (w.id == tid) = true
        · by_cases hr : retryFlag = true <;> simp [hw2, hr]
        · simp only [hw2, Bool.false_eq_true, if_false]
          exact hq w hw
  · cases hfind : q.tasks.find? (fun t => t.id == tid) with
    | none => simpa [cancel, hfind] using hq
    | some u =>
      by_cases hc : (u.status == .completed || u.status == .dead ||
          u.status == .failed) = true
      · simpa [cancel, hfind, hc] using hq
      · simp only [cancel, hfind, hc, Bool.false_eq_true, if_false]
        apply retryInv_mapped
        intro w hw
        by_cases hw2 : (w.id == tid) = true
        · simp [hw2]
        · simp only [hw2, Bool.false_eq_true, if_false]
          exact hq w hw

/-- Witness for C3 amended at the concrete RETRY store. -/
theorem retry_implies_nextRetryAt_preserved_witness :
    retryInv (enqueue qRetryState defaultSettings "b" "research" "T" 20).2 ∧
    retryInv (dequeue 20 qRetryState).2 ∧
    retryInv (markProcessing qRetryState "a") ∧
    retryInv (markCompleted qRetryState "a" none 20) ∧
    (∀ st q', markFailed qRetryState defaultSettings "a" "e" true 20 0 =
      .ok (st, q') → retryInv q') ∧
    retryInv (cancel qRetryState "a" 20).2 :=
  retry_implies_nextRetryAt_preserved qRetryState defaultSettings
    "b" "a" "research" "T" "e" true none 20 0
    (by
      intro t ht hst
      simp only [qRetryState, List.mem_singleton] at ht
      subst ht
      decide)

/-- A selected row is an eligible member of the scanned list. -/
theorem selectNext_mem_eligible (now : Nat) : ∀ (ts : List Task) (t : Task),
    selectNext now ts = some t → t ∈ ts ∧ eligible now t = true := by
  intro ts
  induction ts with
  | nil => intro t h; simp [selectNext] at h
  | cons v ts ih =>
    intro t h
    cases hs : selectNext now ts with
    | none =>
      simp only [selectNext, hs] at h
      by_cases hev : eligible now v = true
      · rw [if_pos hev] at h
        injection h with h2
        subst h2
        exact ⟨List.mem_cons_self _ _, hev⟩
      · rw [if_neg hev] at h
        cases h
    | some b =>
      simp only [selectNext, hs] at h
      by_cases hc : (eligible now v && decide (v.createdAt ≤ b.createdAt)) = true
      · rw [if_pos hc] at h
        injection h with h2
        subst h2
        simp only [Bool.and_eq_true, decide_eq_true_eq] at hc
        exact ⟨List.mem_cons_self _ _, hc.1⟩
      · rw [if_neg hc] at h
        injection h with h2
        subst h2
        obtain ⟨hm, he⟩ := ih _ hs
        exact ⟨List.mem_cons_of_mem _ hm, he⟩

/-- The scan returns `none` exactly when no row is eligible. -/
theorem selectNext_none_iff (now : Nat) : ∀ ts : List Task,
    selectNext now ts = none ↔ ∀ t ∈ ts, eligible now t = false := by
  intro ts
  induction ts with
  | nil => simp [selectNext]
  | cons v ts ih =>
    simp only [List.forall_mem_cons]
    cases hs : selectNext now ts with
    | none =>
      have hall := ih.mp hs
      simp only [selectNext, hs]
      by_cases hev : eligible now v = true
      · rw [if_pos hev]
        constructor
        · intro hcontra
          cases hcontra
        · rintro ⟨h1, -⟩
          rw [h1] at hev
          cases hev
      · rw [if_neg hev]
        constructor
        · intro _
          refine ⟨?_, hall⟩
          cases hbv : eligible now v
          · rfl
          · exact absurd hbv hev
        · intro _
          rfl
    | some b =>
      obtain ⟨hmb, heb⟩ := selectNext_mem_eligible now ts b hs
      simp only [selectNext, hs]
      constructor
      · intro hcontra
        by_cases hc : (eligible now v && decide (v.createdAt ≤ b.createdAt)) = true
        · rw [if_pos hc] at hcontra
          cases hcontra
        · rw [if_neg hc] at hcontra
          cases hcontra
      · rintro ⟨-, hts⟩
        rw [hts b hmb] at heb
        cases heb

/-- A selected row has the least `created_at` among eligible rows. -/
theorem selectNext_min (now : Nat) : ∀ (ts : List Task) (t : Task),
    selectNext now ts = some t →
    ∀ u ∈ ts, eligible now u = true → t.createdAt ≤ u.createdAt := by
  intro ts
  induction ts with
  | nil => intro t h; simp [selectNext] at h
  | cons v ts ih =>
    intro t h u hu hue
    cases hs : selectNext now ts with
    | none =>
      simp only [selectNext, hs] at h
      have hall := (selectNext_none_iff now ts).mp hs
      by_cases hev : eligible now v = true
      · rw [if_pos hev] at h
        injection h with h2
        rcases List.mem_cons.mp hu with h1 | h1
        · rw [← h2, h1]
        · rw [hall u h1] at hue
          cases hue
      · rw [if_neg hev] at h
        cases h
    | some b =>
      simp only [selectNext, hs] at h
      by_cases hc : (eligible now v && decide (v.createdAt ≤ b.createdAt)) = true
      · rw [if_pos hc] at h
        injection h with h2
        simp only [Bool.and_eq_true, decide_eq_true_eq] at hc
        rcases List.mem_cons.mp hu with h1 | h1
        · rw [← h2, h1]
        · rw [← h2]
          exact le_trans hc.2 (ih b hs u h1 hue)
      · rw [if_neg hc] at h
        injection h with h2
        rcases List.mem_cons.mp hu with h1 | h1
        · rw [h1] at hue
          rw [← h2, h1]
          have hnle : ¬ (v.createdAt ≤ b.createdAt) := by
            intro hle
            exact hc (by simp [hue, hle])
          exact le_of_lt (lt_of_not_le hnle)
        · rw [← h2]
          exact ih b hs u h1 hue

/-- A selected row is the leftmost (earliest-inserted) row among the
eligible rows of minimal `created_at`: every eligible row stored before
it is strictly younger by `created_at`. -/
theorem selectNext_leftmost (now : Nat) : ∀ (ts : List Task) (t : Task),
    selectNext now ts = some t →
    ∃ pre post, ts = pre ++ t :: post ∧
      ∀ u ∈ pre, eligible now u = true → t.createdAt < u.createdAt := by
  intro ts
  induction ts with
  | nil => intro t h; simp [selectNext] at h
  | cons v ts ih =>
    intro t h
    cases hs : selectNext now ts with
    | none =>
      simp only [selectNext, hs] at h
      by_cases hev : eligible now v = true
      · rw [if_pos hev] at h
        injection h with h2
        refine ⟨[], ts, ?_, by simp⟩
        rw [← h2]
        rfl
      · rw [if_neg hev] at h
        cases h
    | some b =>
      simp only [selectNext, hs] at h
      by_cases hc : (eligible now v && decide (v.createdAt ≤ b.createdAt)) = true
      · rw [if_pos hc] at h
        injection h with h2
        refine ⟨[], ts, ?_, by simp⟩
        rw [← h2]
        rfl
      · rw [if_neg hc] at h
        injection h with h2
        obtain ⟨pre, post, heq, hpre⟩ := ih b hs
        refine ⟨v :: pre, post, ?_, ?_⟩
        · rw [heq, ← h2]
          rfl
        · intro u hu hue
          rcases List.mem_cons.mp hu with h1 | h1
          · rw [h1] at hue
            rw [← h2, h1]
            have hnle : ¬ (v.createdAt ≤ b.createdAt) := by
              intro hle
              exact hc (by simp [hue, hle])
            exact lt_of_not_le hnle
          · rw [← h2]
            exact hpre u h1 hue

/-- C2 counterexample: two eligible tasks share `created_at = 0` but
were inserted in the order "b" then "a"; `dequeue` returns "b" (the
earlier row), not "a" (the smaller id), refuting the claimed
tie-break by id. -/
theorem dequeue_tie_break_counterexample :
    taskTieA ∈ qTieState.tasks ∧ taskTieB ∈ qTieState.tasks ∧
    eligible 0 taskTieA = true ∧ taskTieA.createdAt = taskTieB.createdAt ∧
    taskTieA.id.data.map Char.toNat = [97] ∧
    taskTieB.id.data.map Char.toNat = [98] ∧ (97 : Nat) < 98 ∧
    (dequeue 0 qTieState).1.map Task.id = some "b" := by
  refine ⟨by decide, by decide, by decide, by decide, by decide, by decide,
    by decide, by decide⟩

/-- C2 amended: `dequeue` selects only QUEUED tasks or RETRY tasks with
`next_retry_at ≤ now`; it returns `none` exactly when no task is
eligible; the selected task has the least `created_at` among eligible
tasks, with ties broken by insertion (rowid) order — not by id — and it
is returned updated to RUNNING with `started_at = now` and `attempts`
incremented by exactly 1, the store being updated in the same way. -/
theorem dequeue_selects_oldest_eligible (now : Nat) (q : QueueState) :
    ((dequeue now q).1 = none ↔ ∀ t ∈ q.tasks, eligible now t = false) ∧
    (∀ t, selectNext now q.tasks = some t →
      eligible now t = true ∧ t ∈ q.tasks ∧
      (∀ u ∈ q.tasks, eligible now u = true → t.createdAt ≤ u.createdAt) ∧
      (∃ pre post, q.tasks = pre ++ t :: post ∧
        ∀ u ∈ pre, eligible now u = true → t.createdAt < u.createdAt) ∧
      (dequeue now q).1 =
        some { t with status := .running, startedAt := some now,
                      attempts := t.attempts + 1 } ∧
      (dequeue now q).2.tasks = q.tasks.map (fun u =>
        if u.id == t.id then
          { t with status := .running, startedAt := some now,
                   attempts := t.attempts + 1 }
        else u)) := by
  constructor
  · cases hs : selectNext now q.tasks with
    | none =>
      simp only [dequeue, hs]
      simpa using (selectNext_none_iff now q.tasks).mp hs
    | some b =>
      obtain ⟨hm, he⟩ := selectNext_mem_eligible now q.tasks b hs
      simp only [dequeue, hs]
      constructor
      · intro hcontra
        simp at hcontra
      · intro hP
        rw [hP b hm] at he
        cases he
  · intro t hs
    obtain ⟨hm, he⟩ := selectNext_mem_eligible now q.tasks t hs
    refine ⟨he, hm, selectNext_min now q.tasks t hs,
      selectNext_leftmost now q.tasks t hs, ?_, ?_⟩
    · simp [dequeue, hs, claimTask]
    · simp [dequeue, hs, claimTask]

/-- Witness for C2 amended: the tie store, where the earlier row "b"
is selected, claimed and written back. -/
theorem dequeue_selects_oldest_eligible_witness :
    eligible 0 taskTieB = true ∧ taskTieB ∈ qTieState.tasks ∧
    (∀ u ∈ qTieState.tasks, eligible 0 u = true →
      taskTieB.createdAt ≤ u.createdAt) ∧
    (∃ pre post, qTieState.tasks = pre ++ taskTieB :: post ∧
      ∀ u ∈ pre, eligible 0 u = true → taskTieB.createdAt < u.createdAt) ∧
    (dequeue 0 qTieState).1 =
      some { taskTieB with status := .running, startedAt := some 0,
                           attempts := taskTieB.attempts + 1 } ∧
    (dequeue 0 qTieState).2.tasks = qTieState.tasks.map (fun u =>
      if u.id == taskTieB.id then
        { taskTieB with status := .running, startedAt := some 0,
                        attempts := taskTieB.attempts + 1 }
      else u) :=
  (dequeue_selects_oldest_eligible 0 qTieState).2 taskTieB (by decide)

/-- Once something has been collected, the scanning loop is the
length-bounded cut of the heading-free prefix of the fence-filtered
remaining lines, appended after the collected lines. -/
theorem collectSummary_nonempty (maxLength : Nat) :
    ∀ (lines : List String) (inCode : Bool) (acc : List String),
      acc ≠ [] → (acc.map pyLen).sum ≤ maxLength →
      collectSummary maxLength lines acc inCode =
        acc.reverse ++ cutAtLength maxLength ((acc.map pyLen).sum)
          ((removeFences lines inCode).takeWhile
            (fun x => !pyStartsWith x "#")) := by
  intro lines
  induction lines with
  | nil =>
    intro inCode acc hne hsum
    simp [collectSummary, removeFences, cutAtLength]
  | cons line rest ih =>
    intro inCode acc hne hsum
    have hae : acc.isEmpty = false := by
      cases acc
      · exact absurd rfl hne
      · rfl
    by_cases hf : pyStartsWith (pyStrip line) "```" = true
    · simp only [collectSummary, removeFences, hf, if_true]
      exact ih (!inCode) acc hne hsum
    · rw [Bool.not_eq_true] at hf
      by_cases hic : inCode = true
      · subst hic
        simp only [collectSummary, removeFences, hf, if_true,
          Bool.false_eq_true, if_false]
        exact ih true acc hne hsum
      · rw [Bool.not_eq_true] at hic
        subst hic
        by_cases hh : pyStartsWith line "#" = true
        · simp only [collectSummary, removeFences, hf, hae, hh,
            Bool.false_eq_true, if_false, Bool.false_and, Bool.not_false,
            Bool.and_true, if_true, List.takeWhile_cons, Bool.not_true,
            cutAtLength, List.append_nil]
        · rw [Bool.not_eq_true] at hh
          by_cases hlen :
              ((line :: acc).map pyLen).sum > maxLength
          · simp only [collectSummary, removeFences, hf, hae, hh,
              Bool.false_eq_true, if_false, Bool.false_and,
              List.takeWhile_cons, Bool.not_false, if_true, cutAtLength]
            rw [if_pos hlen]
            simp only [List.map_cons, List.sum_cons] at hlen
            rw [if_pos (by omega : (acc.map pyLen).sum + pyLen line > maxLength)]
            simp
          · simp only [collectSummary, removeFences, hf, hae, hh,
              Bool.false_eq_true, if_false, Bool.false_and,
              List.takeWhile_cons, Bool.not_false, if_true, cutAtLength]
            rw [if_neg hlen]
            simp only [List.map_cons, List.sum_cons, gt_iff_lt, not_lt] at hlen
            rw [if_neg (by omega : ¬ (acc.map pyLen).sum + pyLen line > maxLength)]
            rw [ih false (line :: acc) (by simp)
              (by simp only [List.map_cons, List.sum_cons]; omega)]
            simp only [List.reverse_cons, List.map_cons, List.sum_cons,
              List.append_assoc, List.singleton_append]
            rw [Nat.add_comm (pyLen line) ((acc.map pyLen).sum)]

/-- Starting from an empty accumulator, the scanning loop equals the
phase composition: remove fences, drop leading blanks, cut at the
first heading after the first kept line, cut at the length bound. -/
theorem collectSummary_empty (maxLength : Nat) :
    ∀ (lines : List String) (inCode : Bool),
      collectSummary maxLength lines [] inCode =
        cutAtLength maxLength 0
          (cutAtHeading (dropLeadingBlank (removeFences lines inCode))) := by
  intro lines
  induction lines with
  | nil =>
    intro inCode
    simp [collectSummary, removeFences, dropLeadingBlank, cutAtHeading,
      cutAtLength]
  | cons line rest ih =>
    intro inCode
    by_cases hf : pyStartsWith (pyStrip line) "```" = true
    · simp only [collectSummary, removeFences, hf, if_true]
      exact ih (!inCode)
    · rw [Bool.not_eq_true] at hf
      by_cases hic : inCode = true
      · subst hic
        simp only [collectSummary, removeFences, hf, if_true,
          Bool.false_eq_true, if_false]
        exact ih true
      · rw [Bool.not_eq_true] at hic
        subst hic
        by_cases hbl : (pyStrip line).data.isEmpty = true
        · simp only [collectSummary, removeFences, dropLeadingBlank, hf,
            hbl, Bool.false_eq_true, if_false, List.isEmpty_nil,
            Bool.true_and, if_true, List.dropWhile_cons]
          simpa only [dropLeadingBlank] using ih false
        · rw [Bool.not_eq_true] at hbl
          by_cases hlen : (([line] : List String).map pyLen).sum > maxLength
          · simp only [collectSummary, removeFences, dropLeadingBlank,
              cutAtHeading, hf, hbl, Bool.false_eq_true, if_false,
              List.isEmpty_nil, Bool.true_and, List.dropWhile_cons,
              Bool.not_true, Bool.and_false, cutAtLength]
            rw [if_pos hlen]
            simp only [List.map_cons, List.map_nil, List.sum_cons,
              List.sum_nil, Nat.add_zero] at hlen
            rw [if_pos (by omega : 0 + pyLen line > maxLength)]
            simp
          · simp only [collectSummary, removeFences, dropLeadingBlank,
              cutAtHeading, hf, hbl, Bool.false_eq_true, if_false,
              List.isEmpty_nil, Bool.true_and, List.dropWhile_cons,
              Bool.not_true, Bool.and_false, cutAtLength]
            rw [if_neg hlen]
            simp only [List.map_cons, List.map_nil, List.sum_cons,
              List.sum_nil, Nat.add_zero, gt_iff_lt, not_lt] at hlen
            rw [if_neg (by omega : ¬ 0 + pyLen line > maxLength)]
            rw [collectSummary_nonempty maxLength rest false [line]
              (by simp)
              (by simp only [List.map_cons, List.map_nil, List.sum_cons,
                    List.sum_nil, Nat.add_zero]; omega)]
            simp only [List.reverse_cons, List.reverse_nil, List.map_cons,
              List.map_nil, List.sum_cons, List.sum_nil, Nat.add_zero,
              List.nil_append, List.singleton_append]
            rw [Nat.zero_add]

/-- C9 counterexample: on `"Intro\n## Sub\nTail"` the code stops at the
first heading line of any level (the `##` subsection), producing
`"Intro"`, while the spec's description — cut only at the second
top-level heading — keeps the whole text; so the claimed
characterisation of the extracted summary is false. -/
theorem extract_summary_spec_counterexample :
    extractFirstSection "Intro\n## Sub\nTail" 500 = "Intro" ∧
    specC9Summary "Intro\n## Sub\nTail" = "Intro\n## Sub\nTail" ∧
    extractFirstSection "Intro\n## Sub\nTail" 500 ≠
      specC9Summary "Intro\n## Sub\nTail" := by
  refine ⟨by decide, by decide, by decide⟩

/-- C9 amended: for every markdown text the extracted summary equals
the phase description: remove fence-delimiter lines and fenced-block
contents, drop leading blank lines, keep lines up to but excluding the
first heading line of any level after the first kept line (not the
second top-level heading), stop once the kept line lengths exceed 500,
then join, trim, and when still longer than 500 characters cut the
first 500 characters at the last space and append "...". -/
theorem extract_summary_phases (content : String) :
    extractFirstSection content 500 = amendedC9Summary content := by
  simp only [extractFirstSection, amendedC9Summary, collectSummary_empty]

end DeepAgent
